import Mathlib

/-!
Verification of the opennox packet-decode tool and UDP proxy against its
specification. Source functions are embedded shallowly: bytes are `Nat`
values below 256, Go slices are `List Nat`, fallible operations return
`Option`, and the mutable per-port obfuscation key is threaded as explicit
state. The message registry and codec (package `netmsg` / `noxnet`) is not
part of the given sources; those parts are modelled from the spec and are
marked as such.
-/

set_option autoImplicit false

/-- Hex digit value of a character, as accepted by Go's
`encoding/hex.DecodeString` (both upper and lower case). -/
def hexDigitVal (c : Char) : Option Nat :=
  if '0' ≤ c ∧ c ≤ '9' then some (c.toNat - '0'.toNat)
  else if 'a' ≤ c ∧ c ≤ 'f' then some (c.toNat - 'a'.toNat + 10)
  else if 'A' ≤ c ∧ c ≤ 'F' then some (c.toNat - 'A'.toNat + 10)
  else none

/-- Decode a list of hex characters two at a time; `none` models the error
return of `hex.DecodeString` (odd length or invalid digit). -/
def hexDecodeChars : List Char → Option (List Nat)
  | [] => some []
  | [_] => none
  | c1 :: c2 :: rest =>
    match hexDigitVal c1, hexDigitVal c2, hexDecodeChars rest with
    | some h, some l, some bs => some ((16 * h + l) :: bs)
    | _, _, _ => none

/-- Embeds `hex.DecodeString`: `none` models a non-nil error. -/
def hexDecode (s : String) : Option (List Nat) :=
  hexDecodeChars s.toList

/-- Lower-case hex digit character for a value below 16. -/
def hexDigitChar (n : Nat) : Char :=
  if n < 10 then Char.ofNat ('0'.toNat + n) else Char.ofNat ('a'.toNat + n - 10)

/-- Embeds `hex.EncodeToString` for a byte list. -/
def hexEncode (bs : List Nat) : String :=
  String.mk (bs.foldr (fun b acc => hexDigitChar (b / 16 % 16) :: hexDigitChar (b % 16) :: acc) [])

/-- Interface of the message registry and codec used by the capture decoder
(`netmsg.Op.Len`, `netmsg.Op.String`, `netmsg.State.DecodeNext`, and the
`netmsg.Unknown` test). The codec itself is not part of the given sources;
a record of this shape stands for it, and `noxCodec` below is a concrete
instance modelled from the spec. `opLen` returns the fixed payload length
of an opcode (excluding the opcode byte itself) or `-1` for
variable/unknown length; `decodeNext` consumes the opcode byte plus
payload and returns the message and byte count consumed, or `none` for a
non-nil error. -/
structure Codec (M : Type) where
  opLen : Nat → Int
  opName : Nat → String
  decodeNext : Bool → List Nat → Option (M × Nat)
  isUnknown : M → Bool

/-- Embeds the output `Msg` struct of the capture decoder. `fields` is the
decoded message when decoding succeeded (Go's `Fields any`, nil otherwise). -/
structure Msg (M : Type) where
  op : String
  len : Nat
  data : String
  fields : Option M

/-- Embeds the `RecordIn` struct (one JSON line of the capture). -/
structure RecordIn where
  srcID : Nat
  dstID : Nat
  src : String
  dst : String
  data : String

/-- Embeds the `RecordOut` struct (one decoded output record). Optional
JSON fields are `Option`; `ops`/`msgs` empty stands for the omitted nil
slice; `data` empty stands for the omitted empty string. -/
structure RecordOut (M : Type) where
  srcID : Nat
  dstID : Nat
  src : String
  dst : String
  hdr : String := ""
  sid : Nat := 0
  syn : Option Nat := none
  ack : Option Nat := none
  len : Nat := 0
  op : Option String := none
  ops : List String := []
  msgs : List (Msg M) := []
  data : String := ""

/-- One iteration of the split loop of `RecordIn.Decode`, lines 110-127:
given the opcode byte `b` and the rest of the buffer, computes the slice
size `sz` to consume, the decoded message `v` (when `DecodeNext` succeeded
with a positive count and a non-`Unknown` message), and the `lenOK` flag.
The fixed-length branch runs first and the decode branch overrides it,
exactly as in the source. -/
def stepSz {M : Type} (c : Codec M) (isClient : Bool) (b : Nat) (rest : List Nat) :
    Nat × Option M × Bool :=
  let len := rest.length + 1
  let s1 : Nat × Bool :=
    if 0 ≤ c.opLen b ∧ c.opLen b ≤ (len : Int) then ((c.opLen b).toNat + 1, true)
    else (len, false)
  match c.decodeNext isClient (b :: rest) with
  | some (m, n) =>
    if 0 < n ∧ ¬ c.isUnknown m then (n, some m, true) else (s1.1, none, s1.2)
  | none => (s1.1, none, s1.2)

/-- Embeds the `for len(data) != 0` loop of `RecordIn.Decode`
(lines 109-138): splits the payload into messages, returning the message
list and the final `allSplit` flag. `none` models the Go runtime panic at
`msg := data[:sz]` when `sz` exceeds the slice capacity (the capacity
equals the length for a slice produced by `hex.DecodeString`). The `fuel`
argument is the loop variant: every iteration consumes at least one byte
(`stepSz_pos` below), so starting the fuel at the buffer length (see
`splitLoop`) the fuel never runs out before the buffer is empty, and the
recursion on `rest.drop (sz - 1)` equals Go's `data = data[sz:]`. -/
def splitLoopAux {M : Type} (c : Codec M) (isClient : Bool) :
    Nat → List Nat → Option (List (Msg M) × Bool)
  | _, [] => some ([], true)
  | 0, _ :: _ => none
  | fuel + 1, b :: rest =>
    let info := stepSz c isClient b rest
    let sz := info.1
    if sz > rest.length + 1 then none
    else
      match splitLoopAux c isClient fuel (rest.drop (sz - 1)) with
      | none => none
      | some (ms, all) =>
        let bytes := (b :: rest).take sz
        some ({ op := c.opName b, len := bytes.length, data := hexEncode bytes,
                fields := info.2.1 } :: ms, info.2.2 && all)

/-- The split loop of `RecordIn.Decode`, with the fuel started at the
buffer length. -/
def splitLoop {M : Type} (c : Codec M) (isClient : Bool) (data : List Nat) :
    Option (List (Msg M) × Bool) :=
  splitLoopAux c isClient data.length data

/-- Embeds `RecordIn.Decode` (lines 74-145). The result is `none` exactly
when the split loop would panic (see `splitLoop`); every other path
produces an output record. -/
def recordDecode {M : Type} (c : Codec M) (r : RecordIn) : Option (RecordOut M) :=
  let o0 : RecordOut M :=
    { srcID := r.srcID, dstID := r.dstID, src := r.src, dst := r.dst, data := r.data }
  match hexDecode r.data with
  | none => some o0
  | some raw =>
    let o1 := { o0 with len := raw.length }
    if raw.length < 2 then some o1
    else
      let h0 := raw.getD 0 0
      let h1 := raw.getD 1 0
      let data := raw.drop 2
      -- Go computes `hdr[0] &^ 0x80`; on a byte below 256 clearing bit 7
      -- equals masking with 0x7F.
      let o2 := { o1 with
        hdr := hexEncode (raw.take 2),
        sid := h0 &&& 0x7F,
        syn := if h0 &&& 0x80 ≠ 0 then some h1 else none,
        ack := if h0 &&& 0x80 ≠ 0 then none else some h1 }
      let isClient : Bool := r.srcID != 0
      if data.length = 1 ∧ (c.decodeNext isClient data).isNone then
        some { o2 with op := some (c.opName (data.getD 0 0)) }
      else
        match splitLoop c isClient data with
        | none => none
        | some (ms, allSplit) =>
          if allSplit then
            some { o2 with ops := ms.map (fun m => m.op), msgs := ms, data := "" }
          else
            some { o2 with ops := ms.map (fun m => m.op) ++ ["???"], msgs := ms }

/-! ### Concrete codec instance

Modelled from the spec: the `netmsg`/`noxnet` message registry is not part
of the given sources. The spec fixes its structural rules (§4.1): each
opcode has a fixed payload length or a variable-length sentinel; decoding
an unregistered opcode yields a generic unknown message carrying the
opcode and raw bytes rather than failing; registered messages decode from
and encode to a fixed field layout. Concrete opcode byte values and exact
field layouts are not given by the spec, so representative ones are used:
server-info (variable length: two port bytes then the name), server-accept
(fixed payload of five bytes, the obfuscation key last), accepted (fixed
payload of one byte). -/

/-- Modelled from the spec: the `MSG_SERVER_INFO` opcode byte. -/
def opServerInfo : Nat := 2

/-- Modelled from the spec: the `MSG_SERVER_ACCEPT` opcode byte. -/
def opServerAccept : Nat := 3

/-- Modelled from the spec: the `MSG_ACCEPTED` opcode byte. -/
def opAccepted : Nat := 4

/-- Modelled from the spec: the message universe seen by the capture
decoder, including the generic unknown message of §4.1. -/
inductive NoxMsg where
  | serverInfo (port : Nat) (name : List Nat)
  | serverAccept (pre : List Nat) (xorKey : Nat)
  | accept (val : Nat)
  | unknown (op : Nat) (payload : List Nat)
deriving DecidableEq

/-- Modelled from the spec: `netmsg.Op.Len` — fixed payload length of an
opcode (excluding the opcode byte), `-1` for variable or unregistered. -/
def noxOpLen (b : Nat) : Int :=
  if b = opServerInfo then -1
  else if b = opServerAccept then 5
  else if b = opAccepted then 1
  else -1

/-- Modelled from the spec: `netmsg.Op.String` — a name for registered
opcodes, a generic rendering for the rest. -/
def noxOpName (b : Nat) : String :=
  if b = opServerInfo then "MSG_SERVER_INFO"
  else if b = opServerAccept then "MSG_SERVER_ACCEPT"
  else if b = opAccepted then "MSG_ACCEPTED"
  else "Op(" ++ toString b ++ ")"

/-- Modelled from the spec: `netmsg.State.DecodeNext` — consumes the opcode
byte and the message payload; a registered opcode with a truncated payload
is a decode error (`none`); an unregistered opcode yields the unknown
message consuming the rest of the buffer, with no error. -/
def noxDecodeNext (_isClient : Bool) : List Nat → Option (NoxMsg × Nat)
  | [] => none
  | b :: rest =>
    if b = opServerInfo then
      if rest.length < 2 then none
      else some (.serverInfo (rest.getD 0 0 + 256 * rest.getD 1 0) (rest.drop 2), 1 + rest.length)
    else if b = opServerAccept then
      if rest.length < 5 then none
      else some (.serverAccept (rest.take 4) (rest.getD 4 0), 6)
    else if b = opAccepted then
      if rest.length < 1 then none
      else some (.accept (rest.getD 0 0), 2)
    else some (.unknown b rest, 1 + rest.length)

/-- Modelled from the spec: `netmsg.Unknown` test used by `isUnknown`. -/
def noxIsUnknown : NoxMsg → Bool
  | .unknown _ _ => true
  | _ => false

/-- Modelled from the spec: the concrete codec instance standing for the
`netmsg` registry in the offline capture decoder. -/
def noxCodec : Codec NoxMsg :=
  { opLen := noxOpLen, opName := noxOpName, decodeNext := noxDecodeNext,
    isUnknown := noxIsUnknown }

/-! ### Handshake interceptor and proxy (second source file) -/

/-- Modelled from the spec: `noxnet.MsgServerInfo` — the server announce
message whose display name the interceptor rewrites. The spec specifies a
display-name field; a representative leading fixed field is included. -/
structure MsgServerInfo where
  port : Nat
  serverName : String
deriving DecidableEq

/-- Modelled from the spec: `noxnet.MsgServerAccept` — carries the
one-byte obfuscation key; the four other payload bytes are kept opaque. -/
structure MsgServerAccept where
  b0 : Nat
  b1 : Nat
  b2 : Nat
  b3 : Nat
  xorKey : Nat
deriving DecidableEq

/-- Modelled from the spec: `noxnet.MsgAccept` — the accepted message, a
representative single payload byte. -/
structure MsgAccept where
  val : Nat
deriving DecidableEq

/-- The decode/encode interface of one typed message (`Message.Decode`,
`Message.EncodeSize`, `Message.Encode`). `decode` returns the message and
the byte count consumed or `none` for a non-nil error; `encode` returns
the content of the destination buffer of length `encodeSize` or `none`
for a non-nil error. -/
structure MsgOps (M : Type) where
  decode : List Nat → Option (M × Nat)
  encodeSize : M → Nat
  encode : M → Option (List Nat)

/-- The typed codecs the interceptor dispatches over. -/
structure ICodec where
  siOps : MsgOps MsgServerInfo
  saOps : MsgOps MsgServerAccept
  accOps : MsgOps MsgAccept

/-- Embeds `modifyMessage` (lines 393-410): decode the message from byte 3
on, apply the mutation `fnc` (which may also update the port state `σ`),
and re-encode after the two header bytes and the opcode byte. On decode
failure the original datagram and state are returned; on encode failure
the original datagram is returned but the state update of `fnc` has
already happened, as in the source. -/
def modifyMessage {M σ : Type} (ops : MsgOps M) (fnc : M → σ → M × σ)
    (data : List Nat) (st : σ) : List Nat × σ :=
  match ops.decode (data.drop 3) with
  | none => (data, st)
  | some (msg, _) =>
    let r := fnc msg st
    match ops.encode r.1 with
    | none => (data, r.2)
    | some enc => (data.take 3 ++ enc, r.2)

/-- Embeds `netmsg.Append` for one typed message: appends the opcode byte
and the encoded payload, or fails if encoding fails. Modelled from the
spec for the parts outside the given sources. -/
def appendMsg {M : Type} (ops : MsgOps M) (opByte : Nat) (buf : List Nat) (m : M) :
    Option (List Nat) :=
  match ops.encode m with
  | none => none
  | some e => some (buf ++ opByte :: e)

/-- Embeds the `MSG_ACCEPTED` branch of `clientPort.interceptServer`
(lines 430-459): decode the accepted message, expect a server-accept
immediately after it, extract and zero its key, and re-serialize both
after the two header bytes. Every failure returns the original datagram;
note that once the second decode has succeeded the key has already been
stored, so later append failures keep the updated key, as in the source. -/
def interceptAccepted (c : ICodec) (xor : Nat) (data : List Nat) : List Nat × Nat :=
  match c.accOps.decode (data.drop 3) with
  | none => (data, xor)
  | some (accept, n) =>
    let left := (data.drop 2).drop (1 + n)
    if left.length = 0 ∨ left.getD 0 0 ≠ opServerAccept then (data, xor)
    else
      match c.saOps.decode (left.drop 1) with
      | none => (data, xor)
      | some (saccept, _) =>
        let xor2 := saccept.xorKey
        let saccept2 : MsgServerAccept := { saccept with xorKey := 0 }
        let out0 := [data.getD 0 0, data.getD 1 0]
        match appendMsg c.accOps opAccepted out0 accept with
        | none => (data, xor2)
        | some out1 =>
          match appendMsg c.saOps opServerAccept out1 saccept2 with
          | none => (data, xor2)
          | some out2 => (out2, xor2)

/-- Embeds `clientPort.interceptServer` (lines 412-463). The state is the
port's atomically stored obfuscation key `c.xor`; the function returns the
(possibly rewritten) datagram and the new key value. -/
def interceptServer (c : ICodec) (xor : Nat) (data : List Nat) : List Nat × Nat :=
  if data.length < 3 then (data, xor)
  else if data.getD 0 0 = 0 ∧ data.getD 1 0 = 0 then
    if data.getD 2 0 = opServerInfo then
      modifyMessage c.siOps
        (fun m s => ({ m with serverName := "Proxy: " ++ m.serverName }, s)) data xor
    else (data, xor)
  else if data.getD 0 0 = 0x80 ∧ data.getD 1 0 = 0 then
    if data.getD 2 0 = opServerAccept then
      modifyMessage c.saOps
        (fun m _ => ({ m with xorKey := 0 }, m.xorKey)) data xor
    else if data.getD 2 0 = opAccepted then
      interceptAccepted c xor data
    else (data, xor)
  else (data, xor)

/-- Modelled from the spec: `noxnet.MsgServerInfo.Decode` — two fixed
bytes then the display name consuming the rest of the buffer; fails when
truncated. -/
def decodeMsgServerInfo (l : List Nat) : Option (MsgServerInfo × Nat) :=
  if l.length < 2 then none
  else some ({ port := l.getD 0 0 + 256 * l.getD 1 0,
               serverName := String.mk ((l.drop 2).map Char.ofNat) }, l.length)

/-- Modelled from the spec: `noxnet.MsgServerInfo.Encode`. -/
def encodeMsgServerInfo (m : MsgServerInfo) : List Nat :=
  [m.port % 256, m.port / 256 % 256] ++ m.serverName.toList.map Char.toNat

/-- Modelled from the spec: `noxnet.MsgServerAccept.Decode` — the fixed
five-byte payload; fails when truncated. -/
def decodeMsgServerAccept (l : List Nat) : Option (MsgServerAccept × Nat) :=
  if l.length < 5 then none
  else some ({ b0 := l.getD 0 0, b1 := l.getD 1 0, b2 := l.getD 2 0, b3 := l.getD 3 0,
               xorKey := l.getD 4 0 }, 5)

/-- Modelled from the spec: `noxnet.MsgServerAccept.Encode`. -/
def encodeMsgServerAccept (m : MsgServerAccept) : List Nat :=
  [m.b0, m.b1, m.b2, m.b3, m.xorKey]

/-- Modelled from the spec: `noxnet.MsgAccept.Decode` — the fixed one-byte
payload; fails when truncated. -/
def decodeMsgAccept (l : List Nat) : Option (MsgAccept × Nat) :=
  if l.length < 1 then none else some ({ val := l.getD 0 0 }, 1)

/-- Modelled from the spec: `noxnet.MsgAccept.Encode`. -/
def encodeMsgAccept (m : MsgAccept) : List Nat :=
  [m.val]

/-- Modelled from the spec: the concrete typed codecs used by the proxy's
interceptor. Encoding into a correctly sized buffer never fails here. -/
def noxICodec : ICodec :=
  { siOps := { decode := decodeMsgServerInfo,
               encodeSize := fun m => 2 + m.serverName.length,
               encode := fun m => some (encodeMsgServerInfo m) },
    saOps := { decode := decodeMsgServerAccept,
               encodeSize := fun _ => 5,
               encode := fun m => some (encodeMsgServerAccept m) },
    accOps := { decode := decodeMsgAccept,
                encodeSize := fun _ => 1,
                encode := fun m => some (encodeMsgAccept m) } }

/-- Embeds `xorData` (lines 477-481): symmetric byte-wise XOR with the key. -/
def xorData (key : Nat) (p : List Nat) : List Nat :=
  p.map (fun b => b ^^^ key)

/-- What one iteration of the per-port worker `clientPort.serve`
(lines 365-391) does with a received datagram: drop it, skip sending after
an empty interception result, or record-and-forward the resulting bytes to
the client (`Proxy.sendToClient` records and writes the same bytes). -/
inductive ServeAct where
  | drop
  | skip
  | send (bytes : List Nat)
deriving DecidableEq

/-- Embeds the body of the receive loop of `clientPort.serve`
(lines 367-389) for one datagram arriving from `srcAddr`: datagrams not
from the configured real server are dropped before any decryption,
interception, recording or forwarding; otherwise the datagram is
XOR-decrypted when a key is set, intercepted, and forwarded unless
interception returned an empty result. Addresses are abstracted as `Nat`.
The worker continues with the next datagram in every one of these cases. -/
def serveStep (c : ICodec) (realSrv : Nat) (xor : Nat) (srcAddr : Nat) (data : List Nat) :
    ServeAct × Nat :=
  if srcAddr ≠ realSrv then (.drop, xor)
  else
    let d1 := if xor ≠ 0 then xorData xor data else data
    let r := interceptServer c xor d1
    if r.1.length = 0 then (.skip, r.2) else (.send r.1, r.2)

/-- Embeds the per-client state of `clientPort` as far as `Proxy.getClient`
observes it. -/
structure ClientPortR where
  id : Nat
  xor : Nat := 0
deriving DecidableEq

/-- Embeds the `Proxy` state used by `getClient`: the atomically increasing
id counter and the client registry keyed by the client address (addresses
abstracted as `Nat`). -/
structure ProxyS where
  clientID : Nat := 0
  clients : Nat → Option ClientPortR

/-- Embeds `Proxy.getClient` (lines 282-308), sequentially: return the
registered port for the address, or create one — allocate the next id,
register the port, then try to open its socket (`clientPort.listen`,
abstracted as the predicate `listenOK`); on failure delete the fresh entry
and surface the error (`none`). -/
def getClient (listenOK : Nat → Bool) (s : ProxyS) (addr : Nat) :
    Option ClientPortR × ProxyS :=
  match s.clients addr with
  | some c => (some c, s)
  | none =>
    let id := s.clientID + 1
    let c : ClientPortR := { id := id }
    let s1 : ProxyS :=
      { clientID := id, clients := fun a => if a = addr then some c else s.clients a }
    if listenOK addr then (some c, s1)
    else (none, { s1 with clients := fun a => if a = addr then none else s1.clients a })

/-! ### Failure predicates and concrete inputs used by the claims -/

/-- A decode or encode step of the server-info branch of the interceptor
fails: the decode of the payload fails, or the re-encode of the message
with the rewritten display name fails. -/
def serverInfoStepFails (c : ICodec) (data : List Nat) : Prop :=
  c.siOps.decode (data.drop 3) = none ∨
  (∃ m n, c.siOps.decode (data.drop 3) = some (m, n) ∧
    c.siOps.encode { m with serverName := "Proxy: " ++ m.serverName } = none)

/-- A decode or encode step of the server-accept branch of the interceptor
fails: the decode of the payload fails, or the re-encode of the message
with the zeroed key fails. -/
def serverAcceptStepFails (c : ICodec) (data : List Nat) : Prop :=
  c.saOps.decode (data.drop 3) = none ∨
  (∃ m n, c.saOps.decode (data.drop 3) = some (m, n) ∧
    c.saOps.encode { m with xorKey := 0 } = none)

/-- A decode or encode step of the accepted branch of the interceptor
fails: the accepted decode fails, or — after it succeeded and a
server-accept follows — the server-accept decode fails, or re-serializing
either message fails. -/
def acceptedStepFails (c : ICodec) (data : List Nat) : Prop :=
  c.accOps.decode (data.drop 3) = none ∨
  (∃ a n, c.accOps.decode (data.drop 3) = some (a, n) ∧
    ((data.drop 2).drop (1 + n) ≠ [] ∧
     ((data.drop 2).drop (1 + n)).getD 0 0 = opServerAccept ∧
     (c.saOps.decode (((data.drop 2).drop (1 + n)).drop 1) = none ∨
      (∃ s m, c.saOps.decode (((data.drop 2).drop (1 + n)).drop 1) = some (s, m) ∧
        (c.accOps.encode a = none ∨
         (∃ e, c.accOps.encode a = some e ∧
           c.saOps.encode { s with xorKey := 0 } = none))))))

/-- Some decode or encode step on the interception path actually executed
for `data` fails. -/
def interceptStepFails (c : ICodec) (data : List Nat) : Prop :=
  3 ≤ data.length ∧
  ((data.getD 0 0 = 0 ∧ data.getD 1 0 = 0 ∧ data.getD 2 0 = opServerInfo ∧
      serverInfoStepFails c data) ∨
   (data.getD 0 0 = 0x80 ∧ data.getD 1 0 = 0 ∧ data.getD 2 0 = opServerAccept ∧
      serverAcceptStepFails c data) ∨
   (data.getD 0 0 = 0x80 ∧ data.getD 1 0 = 0 ∧ data.getD 2 0 = opAccepted ∧
      acceptedStepFails c data))

/-- Typed message codec whose decode always fails, standing for a
malformed payload in the witnesses. -/
def failMsgOps (M : Type) : MsgOps M :=
  { decode := fun _ => none, encodeSize := fun _ => 0, encode := fun _ => none }

/-- Interceptor codec whose decodes always fail. -/
def failICodec : ICodec :=
  { siOps := failMsgOps _, saOps := failMsgOps _, accOps := failMsgOps _ }

/-- Server-accept codec whose decode succeeds (key byte `7`) but whose
encode always fails, exercising the encode-failure path. -/
def encFailSAOps : MsgOps MsgServerAccept :=
  { decode := fun _ => some ({ b0 := 0, b1 := 0, b2 := 0, b3 := 0, xorKey := 7 }, 5),
    encodeSize := fun _ => 5, encode := fun _ => none }

/-- Interceptor codec whose server-accept encode fails. -/
def encFailICodec : ICodec :=
  { noxICodec with saOps := encFailSAOps }

/-- Capture record whose payload is a fixed-length opcode (declared
payload length five) followed by only four bytes, so the declared length
equals the number of remaining payload bytes. -/
def c3Rec : RecordIn :=
  { srcID := 0, dstID := 1, src := "cli", dst := "srv", data := "00000301020304" }

/-- Capture record whose data hex-decodes to a single byte, short of a
full header. -/
def c4Rec : RecordIn :=
  { srcID := 0, dstID := 1, src := "cli", dst := "srv", data := "80" }

/-- Decoded output of `c4Rec`: the short-data early return. -/
def c4Out : RecordOut NoxMsg :=
  { srcID := 0, dstID := 1, src := "cli", dst := "srv", len := 1, data := "80" }

/-- Capture record with an unreliable header and one unregistered opcode
byte, used to exercise the not-fully-split branch. -/
def c4wRec : RecordIn :=
  { srcID := 0, dstID := 1, src := "cli", dst := "srv", data := "0005ff" }

/-- Decoded output of `c4wRec`. -/
def c4wOut : RecordOut NoxMsg :=
  { srcID := 0, dstID := 1, src := "cli", dst := "srv", hdr := "0005", sid := 0,
    syn := none, ack := some 5, len := 3, op := none,
    ops := ["Op(255)", "???"],
    msgs := [{ op := "Op(255)", len := 1, data := "ff", fields := none }],
    data := "0005ff" }

/-- Capture record with an unreliable header and an empty payload. -/
def c5wRec : RecordIn :=
  { srcID := 1, dstID := 0, src := "cli", dst := "srv", data := "0a0b" }

/-- Decoded output of `c5wRec`. -/
def c5wOut : RecordOut NoxMsg :=
  { srcID := 1, dstID := 0, src := "cli", dst := "srv", hdr := "0a0b", sid := 10,
    syn := none, ack := some 11, len := 2, op := none, ops := [], msgs := [], data := "" }

/-- The capture record of end-to-end scenario 3: header `80 05` followed
by the single unrecognized opcode byte `0xFF`. -/
def c6Rec : RecordIn :=
  { srcID := 0, dstID := 1, src := "cli", dst := "srv", data := "8005ff" }

/-- Decoded output of `c6Rec`. -/
def c6Out : RecordOut NoxMsg :=
  { srcID := 0, dstID := 1, src := "cli", dst := "srv", hdr := "8005", sid := 0,
    syn := some 5, ack := none, len := 3, op := none,
    ops := ["Op(255)", "???"],
    msgs := [{ op := "Op(255)", len := 1, data := "ff", fields := none }],
    data := "8005ff" }

/-- Capture record whose payload is the single byte of a registered
variable-length opcode whose decode fails on an empty payload. -/
def c7Rec : RecordIn :=
  { srcID := 0, dstID := 1, src := "cli", dst := "srv", data := "800502" }

/-- Decoded output of `c7Rec`: the bare-opcode early return. -/
def c7Out : RecordOut NoxMsg :=
  { srcID := 0, dstID := 1, src := "cli", dst := "srv", hdr := "8005", sid := 0,
    syn := some 5, ack := none, len := 3, op := some "MSG_SERVER_INFO",
    ops := [], msgs := [], data := "800502" }

/-- A proxy state with an empty client registry. -/
def emptyProxyS : ProxyS :=
  { clientID := 0, clients := fun _ => none }

/-! ### Theorems -/

/-- The consumed size of one loop step is always at least one byte: either
the fixed-length branch sets `sz = n + 1`, the decode branch requires
`n > 0`, or `sz` stays the whole remaining length (nonempty). This is why
the recursion in `splitLoop` matches Go's `data = data[sz:]`. -/
theorem stepSz_pos {M : Type} (c : Codec M) (isClient : Bool) (b : Nat) (rest : List Nat) :
    1 ≤ (stepSz c isClient b rest).1 := by
  unfold stepSz
  cases h : c.decodeNext isClient (b :: rest) with
  | none =>
    simp only []
    split <;> omega
  | some mn =>
    obtain ⟨m, n⟩ := mn
    simp only []
    split
    · omega
    · split <;> omega

/-- Claim C3 (code bug): a capture record carrying a registered
fixed-length opcode whose declared payload length equals the number of
remaining payload bytes makes `RecordIn.Decode` slice `data[:sz]` with
`sz = len(data) + 1`, a runtime slice-bounds panic (`none` in the
embedding) — the decode is fatal and produces no output record, contrary
to the claim. -/
theorem record_decode_truncated_fixed_len_panics :
    recordDecode noxCodec c3Rec = none := by rfl

/-- Claim C6 (counterexample): for the scenario-3 record the decoder's ops
list is not the one-element list containing only the sentinel — the
unrecognized opcode's rendered name precedes the sentinel. -/
theorem capture_scenario3_counterexample :
    recordDecode noxCodec c6Rec = some c6Out ∧ c6Out.ops ≠ ["???"] := by
  exact ⟨by rfl, by decide⟩

/-- Claim C6 (amended): the scenario-3 record decodes to `sid = 0`,
`syn = 5`, `ops` equal to the two-element list of the unrecognized
opcode's name followed by the sentinel `"???"`, and `data` equal to the
original hex (not cleared). -/
theorem capture_scenario3_amended :
    recordDecode noxCodec c6Rec = some c6Out ∧ c6Out.sid = 0 ∧ c6Out.syn = some 5 ∧
      c6Out.ops = [noxOpName 0xFF, "???"] ∧ c6Out.data = c6Rec.data := by
  refine ⟨by rfl, by rfl, by rfl, by decide, by rfl⟩

/-- Claim C7 (counterexample): a single-byte payload whose registered
variable-length opcode fails to decode takes the bare-opcode early return,
which leaves the raw data field in the output — by the output format the
record is therefore not marked fully split, although the claim says it
counts as fully split. -/
theorem bare_opcode_counterexample :
    recordDecode noxCodec c7Rec = some c7Out ∧ c7Out.op = some "MSG_SERVER_INFO" ∧
      c7Out.ops = [] ∧ c7Out.data ≠ "" := by
  exact ⟨by rfl, by rfl, by rfl, by decide⟩

/-- Claim C7 (amended): a payload of exactly one byte whose opcode is
variable-length and whose decode fails yields a single bare-opcode
message — the output carries a single op name, no ops list, no msgs and
no sentinel — but the raw data field is retained in the output rather
than omitted as for fully split records. -/
theorem bare_opcode_amended {M : Type} (c : Codec M) (r : RecordIn) (raw : List Nat)
    (o : RecordOut M)
    (h1 : hexDecode r.data = some raw) (h2 : 2 ≤ raw.length)
    (h3 : (raw.drop 2).length = 1)
    (_h4 : c.opLen ((raw.drop 2).getD 0 0) < 0)
    (h5 : c.decodeNext (r.srcID != 0) (raw.drop 2) = none)
    (h6 : recordDecode c r = some o) :
    o.op = some (c.opName ((raw.drop 2).getD 0 0)) ∧ o.ops = [] ∧ o.msgs = []
      ∧ o.data = r.data := by
  simp only [recordDecode, h1] at h6
  rw [if_neg (by omega)] at h6
  rw [if_pos ⟨h3, by rw [h5]; rfl⟩] at h6
  cases h6
  exact ⟨rfl, rfl, rfl, rfl⟩

/-- Witness for `bare_opcode_amended` at the concrete record `c7Rec`. -/
theorem bare_opcode_amended_witness :
    recordDecode noxCodec c7Rec = some c7Out ∧
      (c7Out.op = some (noxCodec.opName 2) ∧ c7Out.ops = [] ∧ c7Out.msgs = []
        ∧ c7Out.data = c7Rec.data) :=
  ⟨by rfl,
   bare_opcode_amended noxCodec c7Rec [0x80, 0x05, 0x02] c7Out (by rfl) (by decide)
     (by rfl) (by decide) (by rfl) (by rfl)⟩

/-- Claim C4 (counterexample): a record whose data hex-decodes to a single
byte returns early with the raw hex retained, although there is no payload
byte at all — the splitter on the (empty) payload reports fully split, so
the claimed equivalence between omitting the data field and full
attribution fails. -/
theorem record_data_omission_counterexample :
    recordDecode noxCodec c4Rec = some c4Out ∧ c4Out.data ≠ "" ∧
      splitLoop noxCodec (c4Rec.srcID != 0) (((hexDecode c4Rec.data).getD []).drop 2) =
        some ([], true) :=
  ⟨by rfl, by decide, by rfl⟩

/-- Claim C4 (amended): for a record that hex-decodes to at least two
bytes and does not take the single-byte bare-opcode early return, the
output's data field is empty exactly when the splitter attributed every
byte (`allSplit`), and otherwise the sentinel `"???"` is appended to the
ops list and the original hex is retained. Records failing hex decode,
shorter than two bytes, or taking the bare-opcode path retain the raw hex
unconditionally. -/
theorem record_data_omission_amended {M : Type} (c : Codec M) (r : RecordIn) (raw : List Nat)
    (ms : List (Msg M)) (allSplit : Bool) (o : RecordOut M)
    (h1 : hexDecode r.data = some raw) (h2 : 2 ≤ raw.length)
    (h3 : ¬((raw.drop 2).length = 1 ∧ (c.decodeNext (r.srcID != 0) (raw.drop 2)).isNone = true))
    (h4 : splitLoop c (r.srcID != 0) (raw.drop 2) = some (ms, allSplit))
    (h5 : recordDecode c r = some o) :
    o.data = (if allSplit then "" else r.data) ∧
      o.ops = (if allSplit then ms.map (fun m => m.op)
               else ms.map (fun m => m.op) ++ ["???"]) ∧
      o.msgs = ms := by
  simp only [recordDecode, h1] at h5
  rw [if_neg (by omega)] at h5
  rw [if_neg h3] at h5
  cases allSplit with
  | true =>
    rw [h4] at h5
    cases h5
    exact ⟨rfl, rfl, rfl⟩
  | false =>
    rw [h4] at h5
    cases h5
    exact ⟨rfl, rfl, rfl⟩

/-- Witness for `record_data_omission_amended` at the concrete record
`c4wRec`, whose payload is not fully split. -/
theorem record_data_omission_amended_witness :
    recordDecode noxCodec c4wRec = some c4wOut ∧
      (c4wOut.data = (if false then "" else c4wRec.data) ∧
       c4wOut.ops = (if false then c4wOut.msgs.map (fun m => m.op)
                     else c4wOut.msgs.map (fun m => m.op) ++ ["???"]) ∧
       c4wOut.msgs = c4wOut.msgs) :=
  ⟨by rfl,
   record_data_omission_amended noxCodec c4wRec [0, 5, 255] c4wOut.msgs false c4wOut
     (by rfl) (by decide) (by decide) (by rfl) (by rfl)⟩

/-- Claim C5: whenever the record's data hex-decodes to at least two bytes
and an output record is produced, its sid is the low seven bits of header
byte zero, and exactly one of syn/ack is present — syn carries header
byte one when the high bit of byte zero is set, ack carries it otherwise. -/
theorem record_header_fields {M : Type} (c : Codec M) (r : RecordIn) (raw : List Nat)
    (o : RecordOut M)
    (h1 : hexDecode r.data = some raw) (h2 : 2 ≤ raw.length)
    (h5 : recordDecode c r = some o) :
    o.sid = raw.getD 0 0 &&& 0x7F ∧
      (raw.getD 0 0 &&& 0x80 ≠ 0 → o.syn = some (raw.getD 1 0) ∧ o.ack = none) ∧
      (raw.getD 0 0 &&& 0x80 = 0 → o.syn = none ∧ o.ack = some (raw.getD 1 0)) := by
  simp only [recordDecode, h1] at h5
  rw [if_neg (by omega)] at h5
  split at h5
  · cases h5
    exact ⟨rfl, fun hb => ⟨if_pos hb, if_pos hb⟩,
           fun hb => ⟨if_neg (fun hc => hc hb), if_neg (fun hc => hc hb)⟩⟩
  · split at h5
    · exact Option.noConfusion h5
    · split at h5
      · cases h5
        exact ⟨rfl, fun hb => ⟨if_pos hb, if_pos hb⟩,
               fun hb => ⟨if_neg (fun hc => hc hb), if_neg (fun hc => hc hb)⟩⟩
      · cases h5
        exact ⟨rfl, fun hb => ⟨if_pos hb, if_pos hb⟩,
               fun hb => ⟨if_neg (fun hc => hc hb), if_neg (fun hc => hc hb)⟩⟩

/-- Witness for `record_header_fields` at the concrete record `c5wRec`
(unreliable header, so ack is present and syn absent). -/
theorem record_header_fields_witness :
    recordDecode noxCodec c5wRec = some c5wOut ∧
      (c5wOut.sid = [10, 11].getD 0 0 &&& 0x7F ∧
        ([10, 11].getD 0 0 &&& 0x80 ≠ 0 → c5wOut.syn = some ([10, 11].getD 1 0) ∧
          c5wOut.ack = none) ∧
        ([10, 11].getD 0 0 &&& 0x80 = 0 → c5wOut.syn = none ∧
          c5wOut.ack = some ([10, 11].getD 1 0))) :=
  ⟨by rfl, record_header_fields noxCodec c5wRec [10, 11] c5wOut (by rfl) (by decide) (by rfl)⟩

/-- `modifyMessage` returns the datagram and state unchanged when the
decode step fails. -/
theorem modifyMessage_decode_fail {M σ : Type} (ops : MsgOps M) (fnc : M → σ → M × σ)
    (data : List Nat) (st : σ) (h : ops.decode (data.drop 3) = none) :
    modifyMessage ops fnc data st = (data, st) := by
  simp only [modifyMessage, h]

/-- `modifyMessage` returns the datagram unchanged — but the state already
updated by the mutation — when the encode step fails. -/
theorem modifyMessage_encode_fail {M σ : Type} (ops : MsgOps M) (fnc : M → σ → M × σ)
    (data : List Nat) (st : σ) (msg : M) (n : Nat)
    (hd : ops.decode (data.drop 3) = some (msg, n))
    (he : ops.encode (fnc msg st).1 = none) :
    modifyMessage ops fnc data st = (data, (fnc msg st).2) := by
  simp only [modifyMessage, hd, he]

/-- `modifyMessage` keeps the first three bytes and re-encodes the mutated
message when both steps succeed. -/
theorem modifyMessage_encode_ok {M σ : Type} (ops : MsgOps M) (fnc : M → σ → M × σ)
    (data : List Nat) (st : σ) (msg : M) (n : Nat) (enc : List Nat)
    (hd : ops.decode (data.drop 3) = some (msg, n))
    (he : ops.encode (fnc msg st).1 = some enc) :
    modifyMessage ops fnc data st = (data.take 3 ++ enc, (fnc msg st).2) := by
  simp only [modifyMessage, hd, he]

/-- `interceptServer` reduces to the server-info rewrite on a `00 00`
header with the server-info opcode. -/
theorem interceptServer_si (c : ICodec) (xor : Nat) (data : List Nat)
    (hlen : 3 ≤ data.length) (h0 : data.getD 0 0 = 0) (h1 : data.getD 1 0 = 0)
    (h2 : data.getD 2 0 = opServerInfo) :
    interceptServer c xor data =
      modifyMessage c.siOps
        (fun m s => ({ m with serverName := "Proxy: " ++ m.serverName }, s)) data xor := by
  unfold interceptServer
  rw [if_neg (by omega), if_pos ⟨h0, h1⟩, if_pos h2]

/-- `interceptServer` reduces to the server-accept rewrite on an `80 00`
header with the server-accept opcode. -/
theorem interceptServer_sa (c : ICodec) (xor : Nat) (data : List Nat)
    (hlen : 3 ≤ data.length) (h0 : data.getD 0 0 = 0x80) (h1 : data.getD 1 0 = 0)
    (h2 : data.getD 2 0 = opServerAccept) :
    interceptServer c xor data =
      modifyMessage c.saOps (fun m _ => ({ m with xorKey := 0 }, m.xorKey)) data xor := by
  unfold interceptServer
  rw [if_neg (by omega), if_neg (by rw [h0]; simp), if_pos ⟨h0, h1⟩, if_pos h2]

/-- `interceptServer` reduces to the accepted branch on an `80 00` header
with the accepted opcode. -/
theorem interceptServer_acc (c : ICodec) (xor : Nat) (data : List Nat)
    (hlen : 3 ≤ data.length) (h0 : data.getD 0 0 = 0x80) (h1 : data.getD 1 0 = 0)
    (h2 : data.getD 2 0 = opAccepted) :
    interceptServer c xor data = interceptAccepted c xor data := by
  unfold interceptServer
  rw [if_neg (by omega), if_neg (by rw [h0]; simp), if_pos ⟨h0, h1⟩,
    if_neg (by rw [h2]; decide), if_pos h2]

/-- Every decode or encode failure inside the accepted branch returns the
original datagram. -/
theorem interceptAccepted_fail (c : ICodec) (xor : Nat) (data : List Nat)
    (hf : acceptedStepFails c data) :
    (interceptAccepted c xor data).1 = data := by
  rcases hf with hd | ⟨a, n, hd, hleft, hop, hrest⟩
  · simp only [interceptAccepted, hd]
  · simp only [interceptAccepted, hd]
    rw [if_neg (fun h => h.elim (fun h0 => hleft (List.length_eq_zero.mp h0))
      (fun hne => hne hop))]
    rcases hrest with hsd | ⟨s, m, hsd, henc⟩
    · simp only [hsd]
    · simp only [hsd]
      rcases henc with hea | ⟨e, hea, hes⟩
      · simp only [appendMsg, hea]
      · simp only [appendMsg, hea, hes]

/-- Claim C1: whenever any decode or encode step on the interception path
actually executed for the datagram fails, the interceptor returns the
original datagram byte-for-byte unchanged. -/
theorem intercept_failure_passthrough (c : ICodec) (xor : Nat) (data : List Nat)
    (h : interceptStepFails c data) :
    (interceptServer c xor data).1 = data := by
  obtain ⟨hlen, hbr⟩ := h
  rcases hbr with ⟨h0, h1, h2, hf⟩ | ⟨h0, h1, h2, hf⟩ | ⟨h0, h1, h2, hf⟩
  · rw [interceptServer_si c xor data hlen h0 h1 h2]
    rcases hf with hd | ⟨m, n, hd, he⟩
    · rw [modifyMessage_decode_fail _ _ _ _ hd]
    · rw [modifyMessage_encode_fail _ _ _ _ _ _ hd he]
  · rw [interceptServer_sa c xor data hlen h0 h1 h2]
    rcases hf with hd | ⟨m, n, hd, he⟩
    · rw [modifyMessage_decode_fail _ _ _ _ hd]
    · rw [modifyMessage_encode_fail _ _ _ _ _ _ hd he]
  · rw [interceptServer_acc c xor data hlen h0 h1 h2]
    exact interceptAccepted_fail c xor data hf

/-- Witness for `intercept_failure_passthrough`: a server-accept datagram
whose payload decode fails. -/
theorem intercept_failure_passthrough_witness :
    interceptStepFails failICodec [0x80, 0, 3] ∧
      (interceptServer failICodec 0 [0x80, 0, 3]).1 = [0x80, 0, 3] :=
  ⟨⟨by decide, Or.inr (Or.inl ⟨rfl, rfl, rfl, Or.inl rfl⟩)⟩,
   intercept_failure_passthrough failICodec 0 [0x80, 0, 3]
     ⟨by decide, Or.inr (Or.inl ⟨rfl, rfl, rfl, Or.inl rfl⟩)⟩⟩

/-- Claim C2: for a well-formed server-accept datagram (header `80 00`,
server-accept opcode at index 2) whose payload decodes to a message with
key `K ≠ 0`, the interceptor emits the first three bytes followed by the
re-encoded message with a zeroed key — so the output datagram decodes to a
server-accept message whose key field is 0 — and the port's stored key
becomes `K`. -/
theorem intercept_server_accept_rewrites_key (data : List Nat) (xor0 : Nat)
    (msg : MsgServerAccept) (n : Nat)
    (hlen : 3 ≤ data.length) (h0 : data.getD 0 0 = 0x80) (h1 : data.getD 1 0 = 0)
    (h2 : data.getD 2 0 = opServerAccept)
    (hd : noxICodec.saOps.decode (data.drop 3) = some (msg, n))
    (_hk : msg.xorKey ≠ 0) :
    interceptServer noxICodec xor0 data =
      (data.take 3 ++ encodeMsgServerAccept { msg with xorKey := 0 }, msg.xorKey) ∧
      noxICodec.saOps.decode ((interceptServer noxICodec xor0 data).1.drop 3) =
        some ({ msg with xorKey := 0 }, 5) := by
  obtain ⟨b0, b1, b2, b3, k⟩ := msg
  have hmain : interceptServer noxICodec xor0 data =
      (data.take 3 ++ encodeMsgServerAccept
        { b0 := b0, b1 := b1, b2 := b2, b3 := b3, xorKey := 0 }, k) := by
    rw [interceptServer_sa _ _ _ hlen h0 h1 h2]
    exact modifyMessage_encode_ok _ _ _ _ _ n _ hd rfl
  refine ⟨hmain, ?_⟩
  have h3 : (data.take 3).length = 3 := by
    rw [List.length_take]
    omega
  have hfst : (interceptServer noxICodec xor0 data).1 =
      data.take 3 ++ encodeMsgServerAccept
        { b0 := b0, b1 := b1, b2 := b2, b3 := b3, xorKey := 0 } := by
    rw [hmain]
  rw [hfst, List.drop_left' h3]
  rfl

/-- Witness for `intercept_server_accept_rewrites_key` at a concrete
server-accept datagram carrying key `0x37`. -/
theorem intercept_server_accept_rewrites_key_witness :
    (0x37 : Nat) ≠ 0 ∧
      interceptServer noxICodec 0 [0x80, 0, 3, 9, 8, 7, 6, 0x37] =
        (([0x80, 0, 3, 9, 8, 7, 6, 0x37] : List Nat).take 3 ++
          encodeMsgServerAccept { b0 := 9, b1 := 8, b2 := 7, b3 := 6, xorKey := 0 }, 0x37) ∧
      noxICodec.saOps.decode
          ((interceptServer noxICodec 0 [0x80, 0, 3, 9, 8, 7, 6, 0x37]).1.drop 3) =
        some ({ b0 := 9, b1 := 8, b2 := 7, b3 := 6, xorKey := 0 }, 5) :=
  ⟨by decide,
   (intercept_server_accept_rewrites_key [0x80, 0, 3, 9, 8, 7, 6, 0x37] 0
     { b0 := 9, b1 := 8, b2 := 7, b3 := 6, xorKey := 0x37 } 5
     (by decide) rfl rfl rfl rfl (by decide)).1,
   (intercept_server_accept_rewrites_key [0x80, 0, 3, 9, 8, 7, 6, 0x37] 0
     { b0 := 9, b1 := 8, b2 := 7, b3 := 6, xorKey := 0x37 } 5
     (by decide) rfl rfl rfl rfl (by decide)).2⟩

/-- Claim C10: when the server-accept payload decodes but re-encoding the
zeroed message fails, the interceptor passes the original datagram through
unchanged, yet the port's stored key has already been set to the extracted
key. -/
theorem encode_failure_still_stores_key (c : ICodec) (xor : Nat) (data : List Nat)
    (msg : MsgServerAccept) (n : Nat)
    (hlen : 3 ≤ data.length) (h0 : data.getD 0 0 = 0x80) (h1 : data.getD 1 0 = 0)
    (h2 : data.getD 2 0 = opServerAccept)
    (hd : c.saOps.decode (data.drop 3) = some (msg, n))
    (he : c.saOps.encode { msg with xorKey := 0 } = none) :
    interceptServer c xor data = (data, msg.xorKey) := by
  rw [interceptServer_sa _ _ _ hlen h0 h1 h2]
  exact modifyMessage_encode_fail _ _ _ _ msg n hd he

/-- Witness for `encode_failure_still_stores_key`: the decode succeeds
with key `7`, the encode fails, the datagram is unchanged and the stored
key is `7` (not the previous `5`). -/
theorem encode_failure_still_stores_key_witness :
    encFailICodec.saOps.decode (([0x80, 0, 3] : List Nat).drop 3) =
        some ({ b0 := 0, b1 := 0, b2 := 0, b3 := 0, xorKey := 7 }, 5) ∧
      encFailICodec.saOps.encode
          { b0 := 0, b1 := 0, b2 := 0, b3 := 0, xorKey := 0 } = none ∧
      interceptServer encFailICodec 5 [0x80, 0, 3] = ([0x80, 0, 3], 7) :=
  ⟨rfl, rfl,
   encode_failure_still_stores_key encFailICodec 5 [0x80, 0, 3]
     { b0 := 0, b1 := 0, b2 := 0, b3 := 0, xorKey := 7 } 5
     (by decide) rfl rfl rfl rfl rfl⟩

/-- Claim C8: a datagram arriving on the client port's dedicated socket
from any address other than the configured real server is dropped by the
worker — it is not decrypted, not intercepted (the stored key is
unchanged), not recorded and not forwarded — and the worker continues
with the next datagram. -/
theorem serve_drops_foreign_datagram (c : ICodec) (realSrv xor srcAddr : Nat)
    (data : List Nat) (h : srcAddr ≠ realSrv) :
    serveStep c realSrv xor srcAddr data = (ServeAct.drop, xor) := by
  unfold serveStep
  rw [if_pos h]

/-- Witness for `serve_drops_foreign_datagram` at a concrete foreign
address. -/
theorem serve_drops_foreign_datagram_witness :
    (9 : Nat) ≠ 7 ∧ serveStep noxICodec 7 3 9 [1, 2] = (ServeAct.drop, 3) :=
  ⟨by decide, serve_drops_foreign_datagram noxICodec 7 3 9 [1, 2] (by decide)⟩

/-- Claim C9: acquiring a client port for an unregistered address whose
socket allocation fails surfaces the error to the caller and leaves the
client registry exactly as it was before the call (the fresh entry is
rolled back). -/
theorem get_client_rollback (listenOK : Nat → Bool) (s : ProxyS) (addr : Nat)
    (habs : s.clients addr = none) (hfail : listenOK addr = false) :
    (getClient listenOK s addr).1 = none ∧
      ((getClient listenOK s addr).2).clients = s.clients := by
  simp only [getClient, habs, hfail]
  constructor
  · rfl
  · funext a
    by_cases hc : a = addr
    · simp [hc, habs]
    · simp [hc]

/-- Witness for `get_client_rollback` on an empty registry with an
always-failing socket allocation. -/
theorem get_client_rollback_witness :
    emptyProxyS.clients 5 = none ∧
      ((getClient (fun _ => false) emptyProxyS 5).1 = none ∧
        ((getClient (fun _ => false) emptyProxyS 5).2).clients = emptyProxyS.clients) :=
  ⟨rfl, get_client_rollback (fun _ => false) emptyProxyS 5 rfl rfl⟩
